import Mathlib

/-!
Verification of the receipt composition engine of the usb-printer-service
repository: payload normalization (`common/interface.py`, `printer/template.py`),
receipt rendering (`printer/renderer.py`, `printer/utils.py`) and bitmap
post-processing (`printer/driver.py`), shallowly embedded in Lean 4.

Python strings are modelled as `List Char`, Python floats as exact rationals
(`ℚ`), falsy/`None` distinctions via `Option`, and raised exceptions via
`Except`.  PIL font objects are modelled as records of their measuring
functions (`getlength`, `getbbox`, `textbbox`); the filesystem (fonts and
image files) is modelled as an explicit environment.
-/

set_option linter.unusedVariables false

namespace UsbPrinter

/-- Python strings are modelled as lists of characters. -/
abbrev PStr := List Char

/-- Python `int(x)` on a float: truncation toward zero. -/
def pyInt (q : ℚ) : ℤ :=
  if q < 0 then -⌊-q⌋ else ⌊q⌋

/-- Embeds `str.split(sep)` with an explicit one-character separator.  Mirrors
Python semantics: empty chunks are kept and `"".split(sep) == [""]`. -/
def splitOn (sep : Char) : PStr → List PStr
  | [] => [[]]
  | c :: rest =>
    match splitOn sep rest with
    | [] => [[]]
    | hd :: tl => if c = sep then [] :: hd :: tl else (c :: hd) :: tl

/-- Embeds `" ".join(ws)`. -/
def joinSp : List PStr → PStr
  | [] => []
  | [w] => w
  | w :: ws => w ++ ' ' :: joinSp ws

/-- Bounding box `(x0, y0, x1, y1)` as returned by PIL measuring calls. -/
structure BBox where
  x0 : ℤ
  y0 : ℤ
  x1 : ℤ
  y1 : ℤ
deriving DecidableEq, Repr

/-- A loaded PIL font handle, modelled by its measuring functions.
`getlength` returns a (float) pixel advance; `font.getbbox` may be falsy
(modelled `none`); `draw.textbbox` always returns a box. -/
structure PFont where
  getlength : PStr → ℚ
  getbbox : PStr → Option BBox
  textbbox : PStr → BBox

/-- A real font measures non-degenerate boxes: `y0 ≤ y1` (and `x0 ≤ x1`). -/
def PFont.WellFormed (f : PFont) : Prop :=
  (∀ s bb, f.getbbox s = some bb → bb.y0 ≤ bb.y1 ∧ bb.x0 ≤ bb.x1) ∧
  (∀ s, (f.textbbox s).y0 ≤ (f.textbbox s).y1 ∧ (f.textbbox s).x0 ≤ (f.textbbox s).x1)

/-! ### `ReceiptRenderer.wrap_text` (printer/renderer.py lines 107-138) -/

/-- One step of the greedy word-accumulation loop of `wrap_text`
(renderer.py lines 123-133).  State is `(lines, current_line)`. -/
def greedyStep (font : PFont) (maxWidth : ℚ) :
    List PStr × List PStr → PStr → List PStr × List PStr :=
  fun st word =>
    let test := joinSp (st.2 ++ [word])
    if font.getlength test ≤ maxWidth then (st.1, st.2 ++ [word])
    else if st.2 ≠ [] then (st.1 ++ [joinSp st.2], [word])
    else (st.1 ++ [word], [])

/-- Wrapping of a single paragraph (renderer.py lines 116-136): a paragraph
that fits is emitted whole, otherwise its space-separated words are
accumulated greedily and the remainder flushed. -/
def wrapParagraph (font : PFont) (maxWidth : ℚ) (p : PStr) : List PStr :=
  if font.getlength p ≤ maxWidth then [p]
  else
    let st := (splitOn ' ' p).foldl (greedyStep font maxWidth) ([], [])
    if st.2 ≠ [] then st.1 ++ [joinSp st.2] else st.1

/-- Embeds `ReceiptRenderer.wrap_text`: returns `[]` for empty text, otherwise
splits on explicit newlines and wraps each paragraph. -/
def wrapText (font : PFont) (maxWidth : ℚ) (text : PStr) : List PStr :=
  if text = [] then []
  else ((splitOn '\n' text).map (wrapParagraph font maxWidth)).flatten

/-! ### Payload normalization (`common/interface.py`) -/

/-- A value stored in a `header_info`/`footer_info` dict: the payload
supplies strings, normalization inserts floats. -/
inductive SVal where
  | s (v : PStr)
  | n (v : ℚ)
deriving DecidableEq, Repr

/-- Embeds `Item` (interface.py lines 6-14). -/
structure Item where
  name : PStr
  amount : ℚ
  quantity : ℚ
deriving DecidableEq, Repr

/-- Embeds `Item.line_total` property. -/
def Item.line_total (i : Item) : ℚ := i.amount * i.quantity

/-- Embeds `items_total = sum(item.line_total for item in items)`. -/
def itemsTotalOf (items : List Item) : ℚ :=
  (items.map Item.line_total).sum

/-- Python `dict[key] = value` on an insertion-ordered dict: replaces the
value in place when the key exists, otherwise appends. -/
def dictSet (kvs : List (PStr × SVal)) (k : PStr) (v : SVal) : List (PStr × SVal) :=
  match kvs with
  | [] => [(k, v)]
  | (k', v') :: rest =>
    if k' = k then (k', v) :: rest else (k', v') :: dictSet rest k v

/-- The `transaction_info` section after numeric coercion: each of the four
fields is either absent/null (`none`) or a number. -/
structure TxRaw where
  received : Option ℚ := none
  change : Option ℚ := none
  discount : Option ℚ := none
  total : Option ℚ := none
deriving DecidableEq, Repr

/-- A canonical-shape payload as consumed by `PayloadInfo.from_dict` after
the `items`-presence check and numeric coercion of items and
`transaction_info` (the legacy branch remaps into this same shape). -/
structure PayloadDict where
  header_info : List (PStr × SVal)
  footer_info : List (PStr × SVal)
  items : List Item
  tx : TxRaw
deriving DecidableEq, Repr

/-- Embeds `PayloadInfo` (interface.py lines 16-29). -/
structure PayloadInfo where
  header_info : List (PStr × SVal)
  footer_info : List (PStr × SVal)
  items : List Item
  received : Option ℚ := none
  change : Option ℚ := none
  discount : Option ℚ := none
  total : Option ℚ := none
deriving DecidableEq, Repr

/-- Embeds `PayloadInfo.from_dict` business rules and footer population
(interface.py lines 43-104), for a canonical-shape payload. -/
def fromDict (p : PayloadDict) : PayloadInfo :=
  let items := p.items
  let items_total := itemsTotalOf items
  let received := p.tx.received
  let change := p.tx.change
  let discount := p.tx.discount
  -- if total not supplied -> start from items total
  let total : ℚ :=
    match p.tx.total with
    | none => items_total
    | some t => t
  -- if discount supplied -> apply it
  let total : ℚ :=
    match discount with
    | some d => if total = items_total then items_total - d else total
    | none => total
  -- if received & change known -> authoritative total
  let total : ℚ :=
    match received, change with
    | some r, some c => r - c
    | _, _ => total
  -- if received & total known -> compute change
  let change : Option ℚ :=
    match received, change with
    | some r, none => some (r - total)
    | _, c => c
  -- if change & total known -> compute received
  let received : Option ℚ :=
    match change, received with
    | some c, none => some (total + c)
    | _, r => r
  -- if received & change known but discount missing -> infer discount
  let discount : Option ℚ :=
    match received, change, discount with
    | some _, some _, none => some (items_total - total)
    | _, _, d => d
  -- footer info population
  let footer_info := p.footer_info
  let footer_info :=
    match received with
    | some r => dictSet footer_info "Received".toList (.n r)
    | none => footer_info
  let footer_info :=
    match change with
    | some c => dictSet footer_info "Change".toList (.n c)
    | none => footer_info
  let footer_info :=
    match discount with
    | some d => dictSet footer_info "Discount".toList (.n d)
    | none => footer_info
  { header_info := p.header_info
    footer_info := footer_info
    items := items
    received := received
    change := change
    discount := discount
    total := some total }

/-! ### `ReceiptRenderer` (printer/renderer.py lines 74-331) -/

/-- The `LAYOUT` configuration slice read by `ReceiptRenderer`, after the
`int(...)` coercions its `__init__` applies.  `none` image paths model both
an absent key and an empty-string path (both falsy). -/
structure RenderConfig where
  font_path : PStr := "arial.ttf".toList
  line_spacing : ℤ := 4
  font_size : ℤ := 24
  font_size_small : ℤ := 20
  header_image : Option PStr := none
  header_image_scale : ℤ := 100
  footer_image : Option PStr := none
  footer_image_scale : ℤ := 100
  header_title : PStr := []
  header_description : PStr := []
  receipt_title : PStr := []
  footer_label : PStr := []

/-- The ambient filesystem / library environment of a render call:
`truetype path size` models `ImageFont.truetype` (`none` is a raised
`IOError`), `defaultFont` models `ImageFont.load_default()`, `openImage`
models `Image.open(...).convert("L")` returning (width, height) (`none` is
any raised exception), and `fmtNum` / `fmtMoney` model the stdlib string
formatting `str(x)` and `f"\x7bx:,.2f\x7d"` of floats. -/
structure PrintEnv where
  truetype : PStr → ℤ → Option PFont
  defaultFont : PFont
  openImage : PStr → Option (ℕ × ℕ)
  fmtNum : ℚ → PStr
  fmtMoney : ℚ → PStr

/-- Embeds `ImageFont.truetype(path, size)` as a fallible call
(renderer.py line 103). -/
def tryTruetype (env : PrintEnv) (path : PStr) (size : ℤ) : Except Unit PFont :=
  match env.truetype path size with
  | some f => .ok f
  | none => .error ()

/-- Embeds `ReceiptRenderer._load_font` (renderer.py lines 101-105): the raised
`IOError` is caught and `ImageFont.load_default()` returned instead. -/
def loadFontR (env : PrintEnv) (path : PStr) (size : ℤ) : PFont :=
  match tryTruetype env path size with
  | .ok f => f
  | .error _ => env.defaultFont

def PADDING : ℤ := 0
def V_PADDING : ℤ := 0
def BOTTOM_PADDING : ℤ := 10
def SCALE_FACTOR : ℚ := 8 / 10

/-- Embeds `self.line_spacing = int(config.get("line_spacing", 4)) * 2`. -/
def rLineSpacing (cfg : RenderConfig) : ℤ := cfg.line_spacing * 2

/-- Embeds `p_font_size = max(10, int(config.get("font_size", 24) * SCALE_FACTOR))`. -/
def pFontSize (cfg : RenderConfig) : ℤ := max 10 (pyInt ((cfg.font_size : ℚ) * SCALE_FACTOR))

/-- Embeds `p_font_small = max(8, int(config.get("font_size_small", 20) * SCALE_FACTOR))`. -/
def pFontSmall (cfg : RenderConfig) : ℤ := max 8 (pyInt ((cfg.font_size_small : ℚ) * SCALE_FACTOR))

/-- Embeds `self.title_font` of a constructed renderer. -/
def titleFont (env : PrintEnv) (cfg : RenderConfig) : PFont :=
  loadFontR env cfg.font_path (pFontSize cfg)

/-- Embeds `self.body_font` of a constructed renderer. -/
def bodyFont (env : PrintEnv) (cfg : RenderConfig) : PFont :=
  loadFontR env cfg.font_path (pFontSmall cfg)

/-- The observable state of one render call: the write cursor `self.y`,
plus the numeric value handed to the TOTAL key/value stage (recorded so
that theorems can talk about what the TOTAL line prints). -/
structure RState where
  y : ℤ
  totalDrawn : Option ℚ := none
deriving DecidableEq, Repr

/-- Per-line height of `draw_centered_text` (renderer.py lines 152-158). -/
def centerLineHeight (font : PFont) (line : PStr) : ℤ :=
  match font.getbbox line with
  | some bb => bb.y1 - bb.y0
  | none =>
    match font.getbbox ['A'] with
    | some bba => bba.y1 - bba.y0
    | none => 15

/-- Glyph origin x of a centered line in `draw_centered_text`
(renderer.py line 149): `(self.target_width - length) // 2`, unclamped. -/
def centeredLineX (W : ℤ) (length : ℚ) : ℤ := ⌊((W : ℚ) - length) / 2⌋

/-- Embeds `ReceiptRenderer.draw_centered_text` (lines 140-159), cursor effect. -/
def drawCenteredText (font : PFont) (W : ℤ) (text : PStr) (st : RState) : RState :=
  if text = [] then st
  else
    let maxW : ℚ := ((W - 2 * PADDING : ℤ) : ℚ)
    (wrapText font maxW text).foldl
      (fun s line => { s with y := s.y + centerLineHeight font line + 4 }) st

/-- Embeds `ReceiptRenderer.draw_keyvalue_text` (lines 161-169): skipped for a
falsy key or value, otherwise advances by the value's text height + 10. -/
def drawKeyValue (font : PFont) (W : ℤ) (key value : PStr) (st : RState) : RState :=
  if key = [] ∨ value = [] then st
  else
    let bb := font.textbbox value
    { st with y := st.y + (bb.y1 - bb.y0) + 10 }

/-- Embeds `col1_w = int(available_width * (5 / 8))` (renderer.py line 178). -/
def col1Width (aw : ℤ) : ℤ := pyInt ((aw : ℚ) * (5 / 8))

/-- Embeds `col2_w = int(available_width * (1 / 8))` (renderer.py line 179). -/
def col2Width (aw : ℤ) : ℤ := pyInt ((aw : ℚ) * (1 / 8))

/-- Embeds `col3_w = available_width - col1_w - col2_w` (renderer.py line 181). -/
def col3Width (aw : ℤ) : ℤ := aw - col1Width aw - col2Width aw

/-- Row line height of `draw_3_columns` (renderer.py lines 191-192). -/
def threeColLineHeight (font : PFont) : ℤ :=
  match font.getbbox ['A'] with
  | some bba => (bba.y1 - bba.y0) + 4
  | none => 19

/-- Embeds `ReceiptRenderer.draw_3_columns` (lines 171-219), cursor effect: each
column is wrapped to its own box width and the cursor advances by
`max_lines * line_height`.  (`str(...)` conversion of the column values is
applied by the caller in this model.) -/
def draw3Columns (font : PFont) (W : ℤ) (c1 c2 c3 : PStr) (st : RState) : RState :=
  let aw := W - 2 * PADDING
  let l1 := wrapText font ((col1Width aw : ℤ) : ℚ) c1
  let l2 := wrapText font ((col2Width aw : ℤ) : ℚ) c2
  let l3 := wrapText font ((col3Width aw : ℤ) : ℚ) c3
  let maxLines : ℕ := max l1.length (max l2.length l3.length)
  { st with y := st.y + (maxLines : ℤ) * threeColLineHeight font }

/-- Embeds `ReceiptRenderer.draw_dashed_line` (lines 221-222) draws at the current
`y` and does not move the cursor. -/
def drawDashedLine (st : RState) : RState := st

/-- Embeds `ReceiptRenderer.draw_image` (lines 224-248).  Every failure inside the
`try` block — `Image.open` raising, and the `ZeroDivisionError` from a
zero-width source — is caught, logged at warning level and the stage
skipped with the state unchanged. -/
def drawImage (env : PrintEnv) (W : ℤ) (path : Option PStr) (scale : ℤ)
    (st : RState) : RState :=
  match path with
  | none => st
  | some p =>
    if p = [] then st
    else
      match env.openImage p with
      | none => st
      | some (w, h) =>
        let baseW := W - 2 * PADDING
        if baseW ≤ 0 then st
        else if w = 0 then st
        else
          let ratio : ℚ := (baseW : ℚ) / (w : ℚ)
          let hh : ℤ := pyInt ((h : ℚ) * ratio)
          let ih : ℤ :=
            if scale ≠ 100 then max 1 (pyInt ((hh : ℚ) * ((scale : ℚ) / 100)))
            else hh
          { st with y := st.y + ih + 10 }

/-- Embeds `str(v)` for a header/footer dict value. -/
def svalStr (env : PrintEnv) : SVal → PStr
  | .s v => v
  | .n q => env.fmtNum q

/-- The `if info.header_info:` block of `render` (renderer.py lines
270-274). -/
def headerInfoBlock (env : PrintEnv) (font : PFont) (W : ℤ)
    (hi : List (PStr × SVal)) (st : RState) : RState :=
  if hi ≠ [] then
    let st := { st with y := st.y + 5 }
    let st := hi.foldl (fun s kv => drawKeyValue font W kv.1 (svalStr env kv.2) s) st
    { st with y := st.y + 25 }
  else st

/-- The `if info.footer_info:` block of `render` (renderer.py lines
299-305). -/
def footerInfoBlock (env : PrintEnv) (font : PFont) (W : ℤ) (ls : ℤ)
    (fi : List (PStr × SVal)) (st : RState) : RState :=
  if fi ≠ [] then
    let st := { st with y := st.y + ls }
    let st := drawDashedLine st
    let st := { st with y := st.y + ls }
    let st := fi.foldl (fun s kv => drawKeyValue font W kv.1 (svalStr env kv.2) s) st
    { st with y := st.y + 6 }
  else st

/-- The per-item loop of `render` (renderer.py lines 288-290). -/
def itemsBlock (env : PrintEnv) (font : PFont) (W : ℤ)
    (items : List Item) (st : RState) : RState :=
  items.foldl (fun s it =>
    let s := draw3Columns font W it.name (env.fmtNum it.quantity)
      (env.fmtNum it.line_total) s
    { s with y := s.y + 4 }) st

/-- The cropped bitmap returned by `render` (renderer.py line 318). -/
structure ImageOut where
  width : ℤ
  height : ℤ
deriving DecidableEq, Repr

/-- Embeds `ReceiptRenderer.render` (renderer.py lines 250-318) for a renderer
constructed from `cfg` with target width `W`: the pipeline's cursor
evolution, the value printed on the TOTAL line, and the final crop
`(0, 0, target_width, max(40, y))`. -/
def renderRun (env : PrintEnv) (cfg : RenderConfig) (info : PayloadInfo)
    (W : ℤ := 384) : RState × ImageOut :=
  let ls := rLineSpacing cfg
  let tFont := titleFont env cfg
  let bFont := bodyFont env cfg
  let st : RState := { y := V_PADDING }
  -- Calculate total: sum(float(item.line_total) for item in info.items)
  let total := itemsTotalOf info.items
  -- Header Image
  let st := drawImage env W cfg.header_image cfg.header_image_scale st
  -- Header Text
  let st := drawCenteredText tFont W cfg.header_title st
  let st := { st with y := st.y + 10 + ls }
  -- Description
  let st := drawCenteredText bFont W cfg.header_description st
  let st := { st with y := st.y + 16 + ls }
  let st := headerInfoBlock env bFont W info.header_info st
  -- Receipt Title
  let st := drawCenteredText tFont W cfg.receipt_title st
  let st := { st with y := st.y + 5 + ls }
  -- Body - Items
  let st := drawDashedLine st
  let st := { st with y := st.y + ls + 4 }
  let st := draw3Columns bFont W "Item".toList "Qty".toList "Amount".toList st
  let st := { st with y := st.y + ls }
  let st := itemsBlock env bFont W info.items st
  let st := { st with y := st.y + 10 + ls }
  let st := drawDashedLine st
  let st := { st with y := st.y + 4 + ls }
  -- Total
  let st := drawKeyValue bFont W "TOTAL".toList (env.fmtMoney total) st
  let st := { st with totalDrawn := some total }
  let st := footerInfoBlock env bFont W ls info.footer_info st
  -- Footer Label
  let st := { st with y := st.y + 10 + ls }
  let st := drawCenteredText tFont W cfg.footer_label st
  let st := { st with y := st.y + 6 + ls }
  -- Footer Image
  let st := drawImage env W cfg.footer_image cfg.footer_image_scale st
  let st := { st with y := st.y + BOTTOM_PADDING }
  (st, { width := W, height := max 40 st.y })

/-! ### `ReceiptPrinter` (printer/driver.py) -/

/-- Line alignment in `ReceiptPrinter.print_text`. -/
inductive Alignment where
  | left
  | center
  | right
deriving DecidableEq, Repr

/-- Glyph origin x computed by `ReceiptPrinter.print_text`
(driver.py lines 102-107): center and right alignments are clamped with
`max(0, ...)`. -/
def printTextXOffset (pixelWidth lineWidth : ℤ) : Alignment → ℤ
  | .center => max 0 ((pixelWidth - lineWidth).fdiv 2)
  | .right => max 0 (pixelWidth - lineWidth)
  | .left => 0

/-- A PIL image, reduced to its dimensions. -/
structure PILImage where
  width : ℕ
  height : ℕ
deriving DecidableEq, Repr

/-- Result of `ReceiptPrinter._prepare_bitmap`: the emitted bitmap's
dimensions, the width of the (possibly downscaled) source content inside
it, and the horizontal paste offset when the content was centered onto a
full-width white canvas. -/
structure PreparedBitmap where
  width : ℕ
  height : ℕ
  contentWidth : ℕ
  pasteX : Option ℕ
deriving DecidableEq, Repr

/-- Embeds `ReceiptPrinter._prepare_bitmap` (driver.py lines 254-275):
mode conversion, the invalid-dimension guard, `scale_ratio = min(1.0,
pixel_width / width)` with downscale-only resizing, and centering onto a
full-width canvas when narrower than `pixel_width`. -/
def prepareBitmap (pixelWidth : ℕ) (img : PILImage) : Except PStr PreparedBitmap :=
  if img.width = 0 ∨ img.height = 0 then .error "Image has invalid dimensions".toList
  else
    let scaleRatio : ℚ := min 1 ((pixelWidth : ℚ) / (img.width : ℚ))
    let img : PILImage :=
      if scaleRatio ≠ 1 then
        { width := max 1 (pyInt ((img.width : ℚ) * scaleRatio)).toNat
          height := max 1 (pyInt ((img.height : ℚ) * scaleRatio)).toNat }
      else img
    if img.width < pixelWidth then
      -- max(0, (pixel_width - image.width) // 2); the clamp is redundant here
      .ok { width := pixelWidth, height := img.height, contentWidth := img.width
            pasteX := some ((pixelWidth - img.width) / 2) }
    else
      .ok { width := img.width, height := img.height, contentWidth := img.width
            pasteX := none }

/-! ### `wrap_text` wrapper (printer/utils.py lines 19-25) -/

/-- Embeds `_ensure_width` (utils.py lines 19-20): `width or LINE_WIDTH`,
where `0` and `None` are both falsy. -/
def ensureWidth (lineWidth : ℕ) : Option ℕ → ℕ
  | none => lineWidth
  | some n => if n = 0 then lineWidth else n

/-- Embeds `printer.utils.wrap_text` (utils.py lines 23-25):
`textwrap.wrap(text, width=width) or [""]`.  The stdlib `textwrap.wrap`
is not part of this repository and is passed in as `tw`. -/
def utilsWrapText (tw : ℕ → PStr → List PStr) (lineWidth : ℕ)
    (text : PStr) (width : Option ℕ) : List PStr :=
  match tw (ensureWidth lineWidth width) text with
  | [] => [[]]
  | r => r

/-! ### `validate_payload` (printer/template.py lines 14-87) -/

/-- A parsed JSON value, as handed to `validate_payload` by the server. -/
inductive JValue where
  | null
  | str (s : PStr)
  | num (q : ℚ)
  | jbool (b : Bool)
  | arr (xs : List JValue)
  | obj (kvs : List (PStr × JValue))

/-- Dict lookup, `payload[k]` / `k in payload`.  JSON objects have unique
keys, so first match suffices. -/
def jget (kvs : List (PStr × JValue)) (k : PStr) : Option JValue :=
  match kvs with
  | [] => none
  | (k', v) :: rest => if k' = k then some v else jget rest k

/-- Embeds `dict.get(k)` combined with Python's `is None` test: a missing
key and an explicit JSON `null` both read back as `None`. -/
def jgetOpt (kvs : List (PStr × JValue)) (k : PStr) : Option JValue :=
  match jget kvs k with
  | some .null => none
  | r => r

/-- Value of a non-empty digit string. -/
def digitsVal (s : PStr) : ℕ :=
  s.foldl (fun a c => 10 * a + (c.toNat - '0'.toNat)) 0

/-- Model of Python `float(s)` on a string, restricted to plain signed
decimal literals (`-12`, `3.5`, `.5`, `7.`); anything else fails. -/
def parseDec (s : PStr) : Option ℚ :=
  let core : PStr → Option ℚ := fun t =>
    let intPart := t.takeWhile Char.isDigit
    match t.dropWhile Char.isDigit with
    | [] => if intPart = [] then none else some (digitsVal intPart)
    | '.' :: frac =>
      if frac.all Char.isDigit ∧ (intPart ≠ [] ∨ frac ≠ []) then
        some ((digitsVal intPart : ℚ) + (digitsVal frac : ℚ) / (10 ^ frac.length : ℚ))
      else none
    | _ => none
  match s with
  | '-' :: t => (core t).map (fun q => -q)
  | '+' :: t => core t
  | t => core t

/-- Model of Python `float(value)` on a JSON value: numbers pass through,
booleans coerce to 0/1, numeric strings are parsed; `None`, lists and
dicts raise (`none`). -/
def pyFloat? : JValue → Option ℚ
  | .num q => some q
  | .jbool b => some (if b then 1 else 0)
  | .str s => parseDec s
  | _ => none

/-- Dict assignment `data[k] = v` on a JSON object. -/
def jset (kvs : List (PStr × JValue)) (k : PStr) (v : JValue) : List (PStr × JValue) :=
  match kvs with
  | [] => [(k, v)]
  | (k', v') :: rest =>
    if k' = k then (k', v) :: rest else (k', v') :: jset rest k v

/-- Sequential effectful map over a list, first error wins — the shape of
every `for` loop in `validate_payload`. -/
def mapME (f : α → Except PStr β) : List α → Except PStr (List β)
  | [] => .ok []
  | x :: xs =>
    match f x with
    | .error e => .error e
    | .ok b =>
      match mapME f xs with
      | .error e => .error e
      | .ok bs => .ok (b :: bs)

/-- Item sanitization (template.py lines 23-35): each item must be an
object carrying non-null `name`, `amount` and `quantity`; the two numeric
fields are coerced with `float(...)` whose failure propagates. -/
def sanitizeItem (pyStr : JValue → PStr) (it : JValue) : Except PStr JValue :=
  match it with
  | .obj kvs =>
    match jgetOpt kvs "name".toList, jgetOpt kvs "amount".toList,
        jgetOpt kvs "quantity".toList with
    | some nm, some am, some qt =>
      match pyFloat? am, pyFloat? qt with
      | some a, some q =>
        .ok (.obj [("name".toList, .str (pyStr nm)),
                   ("amount".toList, .num a),
                   ("quantity".toList, .num q)])
      | _, _ => .error "could not convert value to float".toList
    | _, _, _ => .error "Each item requires name, amount, and quantity".toList
  | _ => .error "Each item must be an object".toList

/-- Embeds `str(key)` / `"" if value is None else str(value)` sanitization of a
`header_info`/`footer_info` object (template.py lines 45-50, 59-64). -/
def sanitizeStrMap (pyStr : JValue → PStr) (kvs : List (PStr × JValue)) : JValue :=
  .obj (kvs.map (fun kv => (kv.1, .str (match kv.2 with | .null => [] | v => pyStr v))))

/-- Validation of `header_info` or `footer_info` (template.py lines 40-66):
absent or null becomes `\x7b\x7d`, an object is sanitized, anything else errors. -/
def validateSection (pyStr : JValue → PStr) (kvs : List (PStr × JValue))
    (key : PStr) (errMsg : PStr) : Except PStr JValue :=
  match jgetOpt kvs key with
  | none => .ok (.obj [])
  | some (.obj h) => .ok (sanitizeStrMap pyStr h)
  | some _ => .error errMsg

/-- The four `transaction_info` fields, in source order. -/
def txKeys : List PStr :=
  ["received".toList, "change".toList, "discount".toList, "total".toList]

/-- One `transaction_info` field (template.py lines 74-82): absent or null
stays `None`, otherwise `float(value)` must succeed. -/
def sanitizeTxKey (t : List (PStr × JValue)) (k : PStr) : Except PStr (PStr × JValue) :=
  match jgetOpt t k with
  | none => .ok (k, .null)
  | some v =>
    match pyFloat? v with
    | some q => .ok (k, .num q)
    | none => .error ("Field transaction_info.".toList ++ k ++ " must be a number".toList)

/-- Validation of `transaction_info` (template.py lines 68-85). -/
def validateTx (kvs : List (PStr × JValue)) : Except PStr JValue :=
  match jgetOpt kvs "transaction_info".toList with
  | none => .ok (.obj [])
  | some (.obj t) =>
    match mapME (sanitizeTxKey t) txKeys with
    | .error e => .error e
    | .ok pairs => .ok (.obj pairs)
  | some _ => .error "Field transaction_info must be an object".toList

/-- Embeds `validate_payload` (template.py lines 14-87).  The stdlib `str()`
conversion is passed in as `pyStr`. -/
def validatePayload (pyStr : JValue → PStr) (payload : JValue) : Except PStr JValue :=
  match payload with
  | .obj kvs =>
    match jget kvs "items".toList with
    | some (.arr its) =>
      if its.isEmpty then
        .error "Field items is required and must be a non-empty list".toList
      else
        match mapME (sanitizeItem pyStr) its with
        | .error e => .error e
        | .ok sits =>
          match validateSection pyStr kvs "header_info".toList
              "Field header_info must be an object".toList with
          | .error e => .error e
          | .ok hd =>
            match validateSection pyStr kvs "footer_info".toList
                "Field footer_info must be an object".toList with
            | .error e => .error e
            | .ok ft =>
              match validateTx kvs with
              | .error e => .error e
              | .ok tx =>
                .ok (.obj (jset (jset (jset (jset kvs "items".toList (.arr sits))
                  "header_info".toList hd) "footer_info".toList ft)
                  "transaction_info".toList tx))
    | some _ => .error "Field items is required and must be a non-empty list".toList
    | none => .error "Field items is required and must be a non-empty list".toList
  | _ => .error "Payload must be a JSON object".toList

/-- True when an `Except` computation succeeded. -/
def isOkE : Except PStr α → Bool
  | .ok _ => true
  | .error _ => false

/-! Success characterization of `validate_payload`, stated as direct
boolean conditions on the raw payload. -/

/-- One item passes validation: an object with non-null `name`, `amount`,
`quantity` whose `amount`/`quantity` coerce to numbers. -/
def itemOkB (it : JValue) : Bool :=
  match it with
  | .obj kvs =>
    match jgetOpt kvs "name".toList, jgetOpt kvs "amount".toList,
        jgetOpt kvs "quantity".toList with
    | some _, some am, some qt => (pyFloat? am).isSome && (pyFloat? qt).isSome
    | _, _, _ => false
  | _ => false

/-- A `header_info`/`footer_info` section passes: absent, null, or an object. -/
def sectionOkB (kvs : List (PStr × JValue)) (key : PStr) : Bool :=
  match jgetOpt kvs key with
  | none => true
  | some (.obj _) => true
  | some _ => false

/-- One `transaction_info` field passes: absent, null, or coercible. -/
def txFieldOkB (t : List (PStr × JValue)) (k : PStr) : Bool :=
  match jgetOpt t k with
  | none => true
  | some v => (pyFloat? v).isSome

/-- The `transaction_info` section passes. -/
def txOkB (kvs : List (PStr × JValue)) : Bool :=
  match jgetOpt kvs "transaction_info".toList with
  | none => true
  | some (.obj t) => txKeys.all (txFieldOkB t)
  | some _ => false

/-- Full success condition of `validate_payload` on a raw payload. -/
def payloadOkB (p : JValue) : Bool :=
  match p with
  | .obj kvs =>
    (match jget kvs "items".toList with
     | some (.arr its) => !its.isEmpty && its.all itemOkB
     | _ => false)
    && sectionOkB kvs "header_info".toList
    && sectionOkB kvs "footer_info".toList
    && txOkB kvs
  | _ => false

/-- The failure conditions enumerated by the specification's normalization
contract (claim C4), as a predicate on the raw payload: `items` missing,
not a list, or empty, or some item lacking `name`/`amount`/`quantity` or
failing numeric coercion.  A non-object payload is generously counted as
"items missing". -/
def claimC4FailConds (p : JValue) : Bool :=
  match p with
  | .obj kvs =>
    match jget kvs "items".toList with
    | some (.arr its) => its.isEmpty || its.any (fun it => !itemOkB it)
    | some _ => true
    | none => true
  | _ => true

/-! ## Theorems -/

/-- Claim C1: for every canonical-shape payload whose `transaction_info`
supplies both `received` and `change` as numbers, `PayloadInfo.from_dict`
produces a record whose `total` equals `received − change` exactly, even
when the payload also supplies an explicit `transaction_info.total` with a
different value. -/
theorem received_change_override_total
    (header footer : List (PStr × SVal)) (items : List Item)
    (r c : ℚ) (d t : Option ℚ) :
    (fromDict { header_info := header, footer_info := footer, items := items
                tx := { received := some r, change := some c
                        discount := d, total := t } }).total = some (r - c) := by
  cases d <;> cases t <;> rfl

/-- Claim C7: for empty input text, `printer.utils.wrap_text` (the wrapper
around `textwrap.wrap`) returns exactly `[""]` — relying only on the
stdlib fact that `textwrap.wrap` yields no lines for empty input — and in
general it never returns an empty sequence. -/
theorem utilsWrapText_empty_input
    (tw : ℕ → PStr → List PStr) (lineWidth : ℕ) (width : Option ℕ)
    (htw : tw (ensureWidth lineWidth width) [] = []) :
    utilsWrapText tw lineWidth [] width = [[]] ∧
      ∀ text, utilsWrapText tw lineWidth text width ≠ [] := by
  constructor
  · unfold utilsWrapText
    rw [htw]
  · intro text
    unfold utilsWrapText
    cases tw (ensureWidth lineWidth width) text <;> simp

/-- Witness for C7: with `textwrap.wrap` modelled as returning no lines on
empty input, the wrapper returns `[""]`. -/
theorem utilsWrapText_empty_input_witness :
    utilsWrapText (fun _ _ => []) 44 [] none = [[]] :=
  (utilsWrapText_empty_input (fun _ _ => []) 44 none rfl).1

/-- Counterexample to claim C8 as stated: `ReceiptRenderer.draw_centered_text`
computes the centered glyph origin as `(target_width - length) // 2`
without any clamp, so a wrapped line of measured width 400 on a canvas of
width 384 is drawn at x = −8, a negative origin. -/
theorem centeredLineX_negative : centeredLineX 384 400 = -8 ∧ ¬ (0 ≤ centeredLineX 384 400) := by
  have h : centeredLineX 384 400 = -8 := by
    unfold centeredLineX
    norm_num
  exact ⟨h, by rw [h]; omega⟩

/-- Claim C8 amended: in `ReceiptPrinter.print_text` the centered origin is
`max(0, (W − w) // 2)` and the right origin `max(0, W − w)`, both
non-negative and agreeing with the unclamped formulas whenever the line
fits; but in `ReceiptRenderer.draw_centered_text` the centered origin is
`(W − w) // 2` with no clamp, which is negative for every line wider than
the canvas. -/
theorem alignment_origins (W w : ℤ) (len : ℚ) :
    0 ≤ printTextXOffset W w .center ∧
    0 ≤ printTextXOffset W w .right ∧
    printTextXOffset W w .left = 0 ∧
    (w ≤ W → printTextXOffset W w .center = (W - w).fdiv 2 ∧
      printTextXOffset W w .right = W - w) ∧
    ((W : ℚ) < len → centeredLineX W len < 0) := by
  refine ⟨le_max_left 0 _, le_max_left 0 _, rfl, fun h => ⟨?_, ?_⟩, fun h => ?_⟩
  · have h2 : (0 : ℤ) ≤ (W - w).fdiv 2 := Int.fdiv_nonneg (by omega) (by omega)
    simp [printTextXOffset, max_eq_right h2]
  · simp [printTextXOffset, max_eq_right (by omega : (0:ℤ) ≤ W - w)]
  · unfold centeredLineX
    have hlt : ((W : ℚ) - len) / 2 < 0 := by
      apply div_neg_of_neg_of_pos _ (by norm_num)
      linarith
    by_contra hge
    push_neg at hge
    exact absurd (Int.floor_nonneg.mp hge) (not_le.mpr hlt)

/-- Witness for the amended C8 at W = 384: a fitting line of width 100 gets
unclamped offsets 142 (center) and 284 (right), and a 400-wide line is
drawn by the renderer at a negative origin. -/
theorem alignment_origins_witness :
    (printTextXOffset 384 100 .center = (384 - 100 : ℤ).fdiv 2 ∧
      printTextXOffset 384 100 .right = 384 - 100) ∧
    centeredLineX 384 400 < 0 :=
  ⟨(alignment_origins 384 100 400).2.2.2.1 (by norm_num),
   (alignment_origins 384 100 400).2.2.2.2 (by norm_num)⟩

/-- Embeds Python truncation on a non-negative value, where it agrees with
the floor. -/
theorem pyInt_of_nonneg {q : ℚ} (h : 0 ≤ q) : pyInt q = ⌊q⌋ := by
  unfold pyInt
  rw [if_neg (not_lt.mpr h)]

/-- Claim C9: for every three-column row, the column boxes divide the
available width in the fixed 5:1:2 ratio — `col1 = int(aw·5/8)`,
`col2 = int(aw·1/8)`, `col3` the exact remainder, so the three widths sum
to the available width and `col3` is non-negative — each column is wrapped
independently to its own box width, and the cursor advances by exactly the
maximum wrapped-line count of the three columns times one line height. -/
theorem draw3Columns_spec (font : PFont) (W : ℤ) (c1 c2 c3 : PStr) (st : RState)
    (hW : 0 ≤ W) :
    col1Width (W - 2 * PADDING) + col2Width (W - 2 * PADDING) +
        col3Width (W - 2 * PADDING) = W - 2 * PADDING ∧
    0 ≤ col3Width (W - 2 * PADDING) ∧
    (draw3Columns font W c1 c2 c3 st).y = st.y +
      ((max (wrapText font ((col1Width (W - 2 * PADDING) : ℤ) : ℚ) c1).length
        (max (wrapText font ((col2Width (W - 2 * PADDING) : ℤ) : ℚ) c2).length
          (wrapText font ((col3Width (W - 2 * PADDING) : ℤ) : ℚ) c3).length) : ℕ) : ℤ) *
        threeColLineHeight font := by
  have haw : (0 : ℤ) ≤ W - 2 * PADDING := by
    simp only [PADDING]
    omega
  refine ⟨by unfold col3Width; ring, ?_, rfl⟩
  set aw : ℤ := W - 2 * PADDING with haw_def
  have hawq : (0 : ℚ) ≤ (aw : ℚ) := by exact_mod_cast haw
  have h1 : col1Width aw = ⌊(aw : ℚ) * (5 / 8)⌋ :=
    pyInt_of_nonneg (by positivity)
  have h2 : col2Width aw = ⌊(aw : ℚ) * (1 / 8)⌋ :=
    pyInt_of_nonneg (by positivity)
  have hf1 : ((col1Width aw : ℤ) : ℚ) ≤ (aw : ℚ) * (5 / 8) := by
    rw [h1]; exact Int.floor_le _
  have hf2 : ((col2Width aw : ℤ) : ℚ) ≤ (aw : ℚ) * (1 / 8) := by
    rw [h2]; exact Int.floor_le _
  unfold col3Width
  have : ((col1Width aw + col2Width aw : ℤ) : ℚ) ≤ (aw : ℚ) := by
    push_cast
    linarith
  have hle : col1Width aw + col2Width aw ≤ aw := by exact_mod_cast this
  omega

/-- Witness for C9 at the renderer's defaults W = 384: widths 240/48/96 sum
to 384 with a non-negative remainder column. -/
theorem draw3Columns_spec_witness :
    col1Width (384 - 2 * PADDING) + col2Width (384 - 2 * PADDING) +
        col3Width (384 - 2 * PADDING) = 384 - 2 * PADDING ∧
    0 ≤ col3Width (384 - 2 * PADDING) :=
  let t := draw3Columns_spec ⟨fun s => (s.length : ℚ), fun _ => none, fun _ => ⟨0, 0, 0, 10⟩⟩
    384 [] [] [] { y := 0 } (by norm_num)
  ⟨t.1, t.2.1⟩

/-- Claim C5: for every input image with positive dimensions and positive
target width, `_prepare_bitmap` succeeds, computes
`scale_ratio = min(1, pixel_width / width)` so the content is never
upscaled (final content width ≤ source width, final height ≤ source
height), an input narrower than `pixel_width` keeps its original width and
height and is pasted centered at `(pixel_width − width) // 2` onto a
full-width canvas, and the emitted bitmap's width equals `pixel_width`
exactly in all cases. -/
theorem prepareBitmap_spec (pw w h : ℕ) (hw : 0 < w) (hh : 0 < h) (hpw : 0 < pw) :
    ∃ r, prepareBitmap pw ⟨w, h⟩ = .ok r ∧ r.width = pw ∧ r.contentWidth ≤ w ∧
      r.height ≤ h ∧
      (w < pw → r.contentWidth = w ∧ r.height = h ∧
        r.pasteX = some ((pw - w) / 2)) := by
  have hg : ¬((⟨w, h⟩ : PILImage).width = 0 ∨ (⟨w, h⟩ : PILImage).height = 0) := by
    simp only [not_or]
    exact ⟨by omega, by omega⟩
  have hwq : (0 : ℚ) < (w : ℚ) := by exact_mod_cast hw
  rcases Nat.lt_or_ge w pw with hlt | hge
  · -- narrower than the target: ratio 1, no resize, centered paste
    have hr : min 1 ((pw : ℚ) / (w : ℚ)) = 1 := by
      apply min_eq_left
      rw [one_le_div hwq]
      exact_mod_cast Nat.le_of_lt hlt
    refine ⟨{ width := pw, height := h, contentWidth := w
              pasteX := some ((pw - w) / 2) }, ?_, rfl, le_refl w, le_refl h,
            fun _ => ⟨rfl, rfl, rfl⟩⟩
    unfold prepareBitmap
    rw [if_neg hg]
    simp only [hr, ne_eq, not_true_eq_false, if_false, ite_not]
    rw [if_pos hlt]
  · rcases Nat.eq_or_lt_of_le hge with heq | hlt'
    · -- exactly the target width: ratio 1, no resize, no paste
      have hr : min 1 ((pw : ℚ) / (w : ℚ)) = 1 := by
        rw [← heq, div_self (ne_of_gt (by exact_mod_cast hpw : (0 : ℚ) < (pw : ℚ)))]
        exact min_self 1
      refine ⟨{ width := w, height := h, contentWidth := w, pasteX := none },
              ?_, heq.symm, le_refl w, le_refl h, fun hc => absurd hc (by omega)⟩
      unfold prepareBitmap
      rw [if_neg hg]
      simp only [hr, ne_eq, not_true_eq_false, if_false, ite_not]
      rw [if_neg (by omega : ¬ w < pw)]
    · -- wider than the target: downscale to exactly pixel_width
      have hratio_lt : (pw : ℚ) / (w : ℚ) < 1 := by
        rw [div_lt_one hwq]
        exact_mod_cast hlt'
      have hr : min 1 ((pw : ℚ) / (w : ℚ)) = (pw : ℚ) / (w : ℚ) :=
        min_eq_right (le_of_lt hratio_lt)
      have hrne : min 1 ((pw : ℚ) / (w : ℚ)) ≠ 1 := by
        rw [hr]
        exact ne_of_lt hratio_lt
      have hwmul : (w : ℚ) * ((pw : ℚ) / (w : ℚ)) = (pw : ℚ) := by
        field_simp
      have hneww : max 1 (pyInt ((w : ℚ) * min 1 ((pw : ℚ) / (w : ℚ)))).toNat = pw := by
        rw [hr, hwmul, pyInt_of_nonneg (by positivity), Int.floor_natCast,
          Int.toNat_natCast]
        omega
      have hratio_nonneg : (0 : ℚ) ≤ (pw : ℚ) / (w : ℚ) := by positivity
      have hnewh_le : max 1 (pyInt ((h : ℚ) * min 1 ((pw : ℚ) / (w : ℚ)))).toNat ≤ h := by
        rw [hr]
        have hmul_le : (h : ℚ) * ((pw : ℚ) / (w : ℚ)) ≤ (h : ℚ) :=
          mul_le_of_le_one_right (by positivity) (le_of_lt hratio_lt)
        have hfl : ⌊(h : ℚ) * ((pw : ℚ) / (w : ℚ))⌋ ≤ (h : ℤ) := by
          calc ⌊(h : ℚ) * ((pw : ℚ) / (w : ℚ))⌋ ≤ ⌊(h : ℚ)⌋ := Int.floor_le_floor hmul_le
          _ = (h : ℤ) := Int.floor_natCast h
        rw [pyInt_of_nonneg (by positivity)]
        omega
      refine ⟨{ width := pw
                height := max 1 (pyInt ((h : ℚ) * min 1 ((pw : ℚ) / (w : ℚ)))).toNat
                contentWidth := pw
                pasteX := none },
              ?_, rfl, (show pw ≤ w by omega), hnewh_le,
              fun hc => absurd hc (by omega)⟩
      unfold prepareBitmap
      rw [if_neg hg]
      simp only [ne_eq, hrne, not_false_eq_true, if_true]
      rw [if_neg (by rw [hneww]; omega :
        ¬ max 1 (pyInt ((w : ℚ) * min 1 ((pw : ℚ) / (w : ℚ)))).toNat < pw)]
      rw [hneww]

/-- Witness for C5: a 500×100 source against a 384-wide head is accepted
and emitted at exactly 384 pixels of width. -/
theorem prepareBitmap_spec_witness :
    (0 < 500 ∧ 0 < 100 ∧ 0 < 384) ∧
    ∃ r, prepareBitmap 384 ⟨500, 100⟩ = .ok r ∧ r.width = 384 ∧
      r.contentWidth ≤ 500 ∧ r.height ≤ 100 ∧
      (500 < 384 → r.contentWidth = 500 ∧ r.height = 100 ∧
        r.pasteX = some ((384 - 500) / 2)) :=
  ⟨⟨by norm_num, by norm_num, by norm_num⟩,
   prepareBitmap_spec 384 500 100 (by norm_num) (by norm_num) (by norm_num)⟩

/-- A fold whose step only moves the cursor leaves `totalDrawn` unchanged. -/
theorem foldl_totalDrawn {α : Type} (g : RState → α → RState)
    (hg : ∀ s a, (g s a).totalDrawn = s.totalDrawn) :
    ∀ (xs : List α) (st : RState), (xs.foldl g st).totalDrawn = st.totalDrawn := by
  intro xs
  induction xs with
  | nil => intro st; rfl
  | cons x xs ih =>
    intro st
    rw [List.foldl_cons, ih, hg]

theorem drawImage_totalDrawn (env : PrintEnv) (W : ℤ) (p : Option PStr) (sc : ℤ)
    (st : RState) : (drawImage env W p sc st).totalDrawn = st.totalDrawn := by
  unfold drawImage
  cases p with
  | none => rfl
  | some q =>
    dsimp only
    repeat' split
    all_goals rfl

theorem drawCenteredText_totalDrawn (f : PFont) (W : ℤ) (t : PStr) (st : RState) :
    (drawCenteredText f W t st).totalDrawn = st.totalDrawn := by
  unfold drawCenteredText
  split
  · rfl
  · dsimp only
    exact foldl_totalDrawn
      (fun (s : RState) (line : PStr) => { s with y := s.y + centerLineHeight f line + 4 })
      (fun _ _ => rfl) _ _

theorem drawKeyValue_totalDrawn (f : PFont) (W : ℤ) (k v : PStr) (st : RState) :
    (drawKeyValue f W k v st).totalDrawn = st.totalDrawn := by
  unfold drawKeyValue
  split <;> rfl

theorem draw3Columns_totalDrawn (f : PFont) (W : ℤ) (c1 c2 c3 : PStr) (st : RState) :
    (draw3Columns f W c1 c2 c3 st).totalDrawn = st.totalDrawn := rfl

theorem headerInfoBlock_totalDrawn (env : PrintEnv) (f : PFont) (W : ℤ)
    (hi : List (PStr × SVal)) (st : RState) :
    (headerInfoBlock env f W hi st).totalDrawn = st.totalDrawn := by
  unfold headerInfoBlock
  split
  · exact foldl_totalDrawn
      (fun (s : RState) (kv : PStr × SVal) => drawKeyValue f W kv.1 (svalStr env kv.2) s)
      (fun s kv => drawKeyValue_totalDrawn f W kv.1 (svalStr env kv.2) s) hi _
  · rfl

theorem footerInfoBlock_totalDrawn (env : PrintEnv) (f : PFont) (W ls : ℤ)
    (fi : List (PStr × SVal)) (st : RState) :
    (footerInfoBlock env f W ls fi st).totalDrawn = st.totalDrawn := by
  unfold footerInfoBlock
  split
  · exact foldl_totalDrawn
      (fun (s : RState) (kv : PStr × SVal) => drawKeyValue f W kv.1 (svalStr env kv.2) s)
      (fun s kv => drawKeyValue_totalDrawn f W kv.1 (svalStr env kv.2) s) fi _
  · rfl

theorem itemsBlock_totalDrawn (env : PrintEnv) (f : PFont) (W : ℤ)
    (items : List Item) (st : RState) :
    (itemsBlock env f W items st).totalDrawn = st.totalDrawn := by
  unfold itemsBlock
  exact foldl_totalDrawn
    (fun (s : RState) (it : Item) =>
      let s := draw3Columns f W it.name (env.fmtNum it.quantity) (env.fmtNum it.line_total) s
      { s with y := s.y + 4 })
    (fun _ _ => rfl) _ _

/-- Claim C3: for every normalized record, `ReceiptRenderer.render` hands
the TOTAL line the sum of the items' line totals (Σ amount × quantity) —
the `total = sum(float(item.line_total) ...)` recomputed at the top of
`render` — and never the record's reconciled `total` field: whatever value
reconciliation stored in `info.total`, the TOTAL line shows the raw items
sum. -/
theorem render_total_is_items_sum (env : PrintEnv) (cfg : RenderConfig)
    (info : PayloadInfo) (W : ℤ) :
    ((renderRun env cfg info W).1).totalDrawn = some (itemsTotalOf info.items) := by
  unfold renderRun
  simp only [drawImage_totalDrawn, drawCenteredText_totalDrawn, footerInfoBlock_totalDrawn]

/-- A concrete environment in which no font file and no image file can be
loaded: `ImageFont.truetype` and `Image.open` always raise.  The default
font measures every character 1px wide and every string 10px tall. -/
def envNoAssets : PrintEnv :=
  { truetype := fun _ _ => none
    defaultFont :=
      { getlength := fun s => (s.length : ℚ)
        getbbox := fun _ => some ⟨0, 0, 0, 10⟩
        textbbox := fun _ => ⟨0, 0, 0, 10⟩ }
    openImage := fun _ => none
    fmtNum := fun _ => ['0']
    fmtMoney := fun _ => ['0'] }

/-- A minimal normalized record with one item. -/
def infoOneItem : PayloadInfo :=
  { header_info := [], footer_info := [], items := [⟨['x'], 1, 1⟩] }

/-- A non-empty newline-free text that fits emerges from wrapping as a
single unchanged line. -/
theorem wrapParagraph_fit (font : PFont) (maxW : ℚ) (p : PStr)
    (hfit : font.getlength p ≤ maxW) : wrapParagraph font maxW p = [p] := by
  unfold wrapParagraph
  rw [if_pos hfit]

theorem wrapText_single (font : PFont) (maxW : ℚ) (p : PStr) (hne : p ≠ [])
    (hnl : splitOn '\n' p = [p]) (hfit : font.getlength p ≤ maxW) :
    wrapText font maxW p = [p] := by
  unfold wrapText
  rw [if_neg hne, hnl]
  simp [wrapParagraph_fit font maxW p hfit]

theorem col1Width_384 : col1Width (384 - 2 * PADDING) = 240 := by
  rw [show (384:ℤ) - 2 * PADDING = 384 by norm_num [PADDING]]
  unfold col1Width
  rw [show ((384:ℤ):ℚ) * (5/8) = ((240:ℤ):ℚ) by norm_num,
    pyInt_of_nonneg (by norm_num), Int.floor_intCast]

theorem col2Width_384 : col2Width (384 - 2 * PADDING) = 48 := by
  rw [show (384:ℤ) - 2 * PADDING = 384 by norm_num [PADDING]]
  unfold col2Width
  rw [show ((384:ℤ):ℚ) * (1/8) = ((48:ℤ):ℚ) by norm_num,
    pyInt_of_nonneg (by norm_num), Int.floor_intCast]

theorem col3Width_384 : col3Width (384 - 2 * PADDING) = 96 := by
  unfold col3Width
  rw [col1Width_384, col2Width_384]
  norm_num [PADDING]

theorem draw3Columns_eval_header (st : RState) :
    draw3Columns envNoAssets.defaultFont 384 "Item".toList "Qty".toList "Amount".toList st
      = { st with y := st.y + 14 } := by
  unfold draw3Columns
  dsimp only
  rw [col1Width_384, col2Width_384, col3Width_384]
  rw [wrapText_single _ _ _ (by decide) (by decide) (by decide),
      wrapText_single _ _ _ (by decide) (by decide) (by decide),
      wrapText_single _ _ _ (by decide) (by decide) (by decide)]
  simp [threeColLineHeight, envNoAssets]

theorem draw3Columns_eval_item (st : RState) :
    draw3Columns envNoAssets.defaultFont 384 ['x'] ['0'] ['0'] st
      = { st with y := st.y + 14 } := by
  unfold draw3Columns
  dsimp only
  rw [col1Width_384, col2Width_384, col3Width_384]
  rw [wrapText_single _ _ _ (by decide) (by decide) (by decide),
      wrapText_single _ _ _ (by decide) (by decide) (by decide),
      wrapText_single _ _ _ (by decide) (by decide) (by decide)]
  simp [threeColLineHeight, envNoAssets]

theorem titleFont_envNoAssets (cfg : RenderConfig) :
    titleFont envNoAssets cfg = envNoAssets.defaultFont := rfl

theorem bodyFont_envNoAssets (cfg : RenderConfig) :
    bodyFont envNoAssets cfg = envNoAssets.defaultFont := rfl

/-- Counterexample to claim C2 as stated: with the configured font path
unloadable (`ImageFont.truetype` raises on every path),
`ReceiptRenderer._load_font` swallows the error and falls back to
`ImageFont.load_default()`, and `render` completes normally, producing a
384×199 bitmap instead of raising. -/
theorem render_with_failed_font_completes :
    titleFont envNoAssets {} = envNoAssets.defaultFont ∧
    bodyFont envNoAssets {} = envNoAssets.defaultFont ∧
    (renderRun envNoAssets {} infoOneItem 384).2 = { width := 384, height := 199 } := by
  refine ⟨rfl, rfl, ?_⟩
  unfold renderRun
  simp only [titleFont_envNoAssets, bodyFont_envNoAssets, infoOneItem, itemsBlock,
    List.foldl_cons, List.foldl_nil, headerInfoBlock, footerInfoBlock,
    show ∀ q : ℚ, envNoAssets.fmtNum q = ['0'] from fun _ => rfl,
    show ∀ q : ℚ, envNoAssets.fmtMoney q = ['0'] from fun _ => rfl,
    show ∀ p, envNoAssets.openImage p = none from fun _ => rfl,
    show ∀ v, envNoAssets.defaultFont.textbbox v = ⟨0, 0, 0, 10⟩ from fun _ => rfl,
    drawImage, drawCenteredText, drawKeyValue, drawDashedLine, rLineSpacing,
    draw3Columns_eval_header, draw3Columns_eval_item]
  decide

/-- Claim C2 amended: failure to load the configured body font is *not*
fatal — `_load_font` catches the raised `IOError` and silently substitutes
the PIL default font — while failure to load an optional header/footer
image is logged, the stage skipped with the cursor untouched, and in both
cases the render completes and emits a bitmap of the configured width. -/
theorem font_failure_nonfatal (env : PrintEnv) (cfg : RenderConfig)
    (info : PayloadInfo) (W : ℤ) (p : PStr) (size : ℤ) (imgPath : PStr)
    (scale : ℤ) (st : RState) :
    (tryTruetype env p size = .error () → loadFontR env p size = env.defaultFont) ∧
    (env.openImage imgPath = none → imgPath ≠ [] →
      drawImage env W (some imgPath) scale st = st) ∧
    (renderRun env cfg info W).2.width = W := by
  refine ⟨fun h => ?_, fun h hne => ?_, rfl⟩
  · unfold loadFontR
    rw [h]
  · unfold drawImage
    dsimp only
    rw [if_neg hne, h]

/-- Witness for the amended C2: in the environment with no loadable assets
the body font falls back to the default, a missing header image is
skipped, and the render emits a 384-wide bitmap. -/
theorem font_failure_nonfatal_witness :
    loadFontR envNoAssets "arial.ttf".toList (pFontSmall {}) = envNoAssets.defaultFont ∧
    drawImage envNoAssets 384 (some "logo.png".toList) 100 { y := 0 } = { y := 0 } ∧
    (renderRun envNoAssets {} infoOneItem 384).2.width = 384 :=
  ⟨(font_failure_nonfatal envNoAssets {} infoOneItem 384 "arial.ttf".toList
      (pFontSmall {}) "logo.png".toList 100 { y := 0 }).1 rfl,
   (font_failure_nonfatal envNoAssets {} infoOneItem 384 "arial.ttf".toList
      (pFontSmall {}) "logo.png".toList 100 { y := 0 }).2.1 rfl (by decide),
   (font_failure_nonfatal envNoAssets {} infoOneItem 384 "arial.ttf".toList
      (pFontSmall {}) "logo.png".toList 100 { y := 0 }).2.2⟩

theorem pyInt_nonneg {q : ℚ} (h : 0 ≤ q) : 0 ≤ pyInt q := by
  rw [pyInt_of_nonneg h]
  exact Int.floor_nonneg.mpr h

theorem foldl_y_mono {α : Type} (g : RState → α → RState)
    (hg : ∀ s a, s.y ≤ (g s a).y) :
    ∀ (xs : List α) (st : RState), st.y ≤ (xs.foldl g st).y := by
  intro xs
  induction xs with
  | nil => intro st; exact le_refl _
  | cons x xs ih => intro st; exact le_trans (hg st x) (ih (g st x))

theorem centerLineHeight_nonneg {f : PFont} (hf : f.WellFormed) (line : PStr) :
    0 ≤ centerLineHeight f line := by
  unfold centerLineHeight
  cases heq : f.getbbox line with
  | some bb =>
    simp only [heq]
    have := (hf.1 _ _ heq).1
    omega
  | none =>
    simp only [heq]
    cases heqA : f.getbbox ['A'] with
    | some bba =>
      simp only [heqA]
      have := (hf.1 _ _ heqA).1
      omega
    | none =>
      simp only [heqA]
      norm_num

theorem threeColLineHeight_nonneg {f : PFont} (hf : f.WellFormed) :
    0 ≤ threeColLineHeight f := by
  unfold threeColLineHeight
  cases heqA : f.getbbox ['A'] with
  | some bba =>
    simp only [heqA]
    have := (hf.1 _ _ heqA).1
    omega
  | none =>
    simp only [heqA]
    norm_num

theorem drawImage_y_mono (env : PrintEnv) (W : ℤ) (p : Option PStr) (sc : ℤ)
    (st : RState) : st.y ≤ (drawImage env W p sc st).y := by
  unfold drawImage
  cases p with
  | none => exact le_refl _
  | some q =>
    dsimp only
    split
    · exact le_refl _
    · cases heq : env.openImage q with
      | none => simp only [heq]; exact le_refl _
      | some wh =>
        simp only [heq]
        obtain ⟨w, h⟩ := wh
        dsimp only
        split
        · exact le_refl _
        · split
          · exact le_refl _
          · next hboard hwz =>
            dsimp only
            split
            · next =>
              have h1 : (1 : ℤ) ≤ max 1 (pyInt ((pyInt ((h : ℚ) *
                  (((W - 2 * PADDING : ℤ) : ℚ) / (w : ℚ))) : ℤ) * ((sc : ℚ) / 100))) :=
                le_max_left _ _
              omega
            · next =>
              have hw0 : (0 : ℚ) ≤ ((W - 2 * PADDING : ℤ) : ℚ) / (w : ℚ) := by
                apply div_nonneg
                · exact_mod_cast le_of_lt (by omega : (0 : ℤ) < W - 2 * PADDING)
                · exact Nat.cast_nonneg w
              have h1 : 0 ≤ pyInt ((h : ℚ) * (((W - 2 * PADDING : ℤ) : ℚ) / (w : ℚ))) :=
                pyInt_nonneg (mul_nonneg (Nat.cast_nonneg h) hw0)
              omega

theorem drawCenteredText_y_mono {f : PFont} (hf : f.WellFormed) (W : ℤ) (t : PStr)
    (st : RState) : st.y ≤ (drawCenteredText f W t st).y := by
  unfold drawCenteredText
  split
  · exact le_refl _
  · dsimp only
    apply foldl_y_mono
    intro s line
    have := centerLineHeight_nonneg hf line
    dsimp only
    omega

theorem drawKeyValue_y_mono {f : PFont} (hf : f.WellFormed) (W : ℤ) (k v : PStr)
    (st : RState) : st.y ≤ (drawKeyValue f W k v st).y := by
  unfold drawKeyValue
  split
  · exact le_refl _
  · dsimp only
    have := (hf.2 v).1
    omega

theorem draw3Columns_y_mono {f : PFont} (hf : f.WellFormed) (W : ℤ) (c1 c2 c3 : PStr)
    (st : RState) : st.y ≤ (draw3Columns f W c1 c2 c3 st).y := by
  unfold draw3Columns
  dsimp only
  have h1 := threeColLineHeight_nonneg hf
  have h2 := mul_nonneg
    (Int.natCast_nonneg (max (wrapText f ((col1Width (W - 2 * PADDING) : ℤ) : ℚ) c1).length
      (max (wrapText f ((col2Width (W - 2 * PADDING) : ℤ) : ℚ) c2).length
        (wrapText f ((col3Width (W - 2 * PADDING) : ℤ) : ℚ) c3).length))) h1
  omega

theorem headerInfoBlock_y_mono (env : PrintEnv) {f : PFont} (hf : f.WellFormed)
    (W : ℤ) (hi : List (PStr × SVal)) (st : RState) :
    st.y ≤ (headerInfoBlock env f W hi st).y := by
  unfold headerInfoBlock
  split
  · dsimp only
    have h1 := foldl_y_mono (fun s kv => drawKeyValue f W kv.1 (svalStr env kv.2) s)
      (fun s kv => drawKeyValue_y_mono hf W kv.1 (svalStr env kv.2) s) hi
      { st with y := st.y + 5 }
    dsimp only at h1
    omega
  · exact le_refl _

theorem footerInfoBlock_y_mono (env : PrintEnv) {f : PFont} (hf : f.WellFormed)
    {W ls : ℤ} (hls : 0 ≤ ls) (fi : List (PStr × SVal)) (st : RState) :
    st.y ≤ (footerInfoBlock env f W ls fi st).y := by
  unfold footerInfoBlock
  split
  · dsimp only [drawDashedLine]
    have h1 := foldl_y_mono (fun s kv => drawKeyValue f W kv.1 (svalStr env kv.2) s)
      (fun s kv => drawKeyValue_y_mono hf W kv.1 (svalStr env kv.2) s) fi
      { st with y := st.y + ls + ls }
    dsimp only at h1
    omega
  · exact le_refl _

theorem itemsBlock_y_mono (env : PrintEnv) {f : PFont} (hf : f.WellFormed)
    (W : ℤ) (items : List Item) (st : RState) :
    st.y ≤ (itemsBlock env f W items st).y := by
  unfold itemsBlock
  apply foldl_y_mono
  intro s it
  dsimp only
  have h1 := draw3Columns_y_mono hf W it.name (env.fmtNum it.quantity)
    (env.fmtNum it.line_total) s
  omega

/-- A render environment whose fonts (loadable and default) all measure
non-degenerate boxes. -/
def WFPrintEnv (env : PrintEnv) : Prop :=
  env.defaultFont.WellFormed ∧ ∀ p s f, env.truetype p s = some f → f.WellFormed

theorem loadFontR_wf {env : PrintEnv} (henv : WFPrintEnv env) (p : PStr) (size : ℤ) :
    (loadFontR env p size).WellFormed := by
  unfold loadFontR tryTruetype
  cases heq : env.truetype p size with
  | none => simp only [heq]; exact henv.1
  | some f => simp only [heq]; exact henv.2 p size f heq

/-- Taking one more pipeline stage preserves a lower bound on the cursor. -/
theorem le_y_trans {a : ℤ} {s : RState} (f : RState → RState) (h1 : a ≤ s.y)
    (h2 : ∀ t, t.y ≤ (f t).y) : a ≤ (f s).y := le_trans h1 (h2 s)

/-- Claim C10 amended: throughout one render call the write cursor `y` is
monotonically non-decreasing — no pipeline stage (image, centered text,
key/value line, three-column row, dashed rule, or fixed inter-block
spacing) ever decreases `y` — for every record and every layout
configuration with a non-negative `line_spacing`, given fonts that measure
non-degenerate boxes; in particular the full render ends with
`y ≥ V_PADDING`. -/
theorem render_y_monotone (env : PrintEnv) (cfg : RenderConfig) (info : PayloadInfo)
    (W : ℤ) (henv : WFPrintEnv env) (hls : 0 ≤ cfg.line_spacing) :
    (∀ p sc st, st.y ≤ (drawImage env W p sc st).y) ∧
    (∀ (f : PFont) t st, f.WellFormed → st.y ≤ (drawCenteredText f W t st).y) ∧
    (∀ (f : PFont) k v st, f.WellFormed → st.y ≤ (drawKeyValue f W k v st).y) ∧
    (∀ (f : PFont) c1 c2 c3 st, f.WellFormed → st.y ≤ (draw3Columns f W c1 c2 c3 st).y) ∧
    (∀ st, (drawDashedLine st).y = st.y) ∧
    V_PADDING ≤ ((renderRun env cfg info W).1).y := by
  have htf : (titleFont env cfg).WellFormed := loadFontR_wf henv cfg.font_path (pFontSize cfg)
  have hbf : (bodyFont env cfg).WellFormed := loadFontR_wf henv cfg.font_path (pFontSmall cfg)
  have hls2 : 0 ≤ rLineSpacing cfg := by
    unfold rLineSpacing
    omega
  refine ⟨fun p sc st => drawImage_y_mono env W p sc st,
          fun f t st hf => drawCenteredText_y_mono hf W t st,
          fun f k v st hf => drawKeyValue_y_mono hf W k v st,
          fun f c1 c2 c3 st hf => draw3Columns_y_mono hf W c1 c2 c3 st,
          fun st => rfl, ?_⟩
  unfold renderRun
  dsimp only
  refine le_y_trans (fun t => { t with y := t.y + BOTTOM_PADDING })
    ?_ (fun t => by dsimp only; unfold BOTTOM_PADDING; omega)
  refine le_y_trans (drawImage env W cfg.footer_image cfg.footer_image_scale)
    ?_ (fun t => drawImage_y_mono env W _ _ t)
  refine le_y_trans (fun t => { t with y := t.y + 6 + rLineSpacing cfg })
    ?_ (fun t => by dsimp only; omega)
  refine le_y_trans (drawCenteredText (titleFont env cfg) W cfg.footer_label)
    ?_ (fun t => drawCenteredText_y_mono htf W _ t)
  refine le_y_trans (fun t => { t with y := t.y + 10 + rLineSpacing cfg })
    ?_ (fun t => by dsimp only; omega)
  refine le_y_trans (footerInfoBlock env (bodyFont env cfg) W (rLineSpacing cfg)
    info.footer_info) ?_ (fun t => footerInfoBlock_y_mono env hbf hls2 _ t)
  refine le_y_trans (fun t => { t with totalDrawn := some (itemsTotalOf info.items) })
    ?_ (fun t => le_refl _)
  refine le_y_trans (drawKeyValue (bodyFont env cfg) W "TOTAL".toList
    (env.fmtMoney (itemsTotalOf info.items))) ?_ (fun t => drawKeyValue_y_mono hbf W _ _ t)
  refine le_y_trans (fun t => { t with y := t.y + 4 + rLineSpacing cfg })
    ?_ (fun t => by dsimp only; omega)
  refine le_y_trans drawDashedLine ?_ (fun t => le_refl _)
  refine le_y_trans (fun t => { t with y := t.y + 10 + rLineSpacing cfg })
    ?_ (fun t => by dsimp only; omega)
  refine le_y_trans (itemsBlock env (bodyFont env cfg) W info.items)
    ?_ (fun t => itemsBlock_y_mono env hbf W info.items t)
  refine le_y_trans (fun t => { t with y := t.y + rLineSpacing cfg })
    ?_ (fun t => by dsimp only; omega)
  refine le_y_trans (draw3Columns (bodyFont env cfg) W "Item".toList "Qty".toList
    "Amount".toList) ?_ (fun t => draw3Columns_y_mono hbf W _ _ _ t)
  refine le_y_trans (fun t => { t with y := t.y + rLineSpacing cfg + 4 })
    ?_ (fun t => by dsimp only; omega)
  refine le_y_trans drawDashedLine ?_ (fun t => le_refl _)
  refine le_y_trans (fun t => { t with y := t.y + 5 + rLineSpacing cfg })
    ?_ (fun t => by dsimp only; omega)
  refine le_y_trans (drawCenteredText (titleFont env cfg) W cfg.receipt_title)
    ?_ (fun t => drawCenteredText_y_mono htf W _ t)
  refine le_y_trans (headerInfoBlock env (bodyFont env cfg) W info.header_info)
    ?_ (fun t => headerInfoBlock_y_mono env hbf W info.header_info t)
  refine le_y_trans (fun t => { t with y := t.y + 16 + rLineSpacing cfg })
    ?_ (fun t => by dsimp only; omega)
  refine le_y_trans (drawCenteredText (bodyFont env cfg) W cfg.header_description)
    ?_ (fun t => drawCenteredText_y_mono hbf W _ t)
  refine le_y_trans (fun t => { t with y := t.y + 10 + rLineSpacing cfg })
    ?_ (fun t => by dsimp only; omega)
  refine le_y_trans (drawCenteredText (titleFont env cfg) W cfg.header_title)
    ?_ (fun t => drawCenteredText_y_mono htf W _ t)
  refine le_y_trans (drawImage env W cfg.header_image cfg.header_image_scale)
    ?_ (fun t => drawImage_y_mono env W _ _ t)
  exact le_refl _

theorem envNoAssets_wf : WFPrintEnv envNoAssets := by
  constructor
  · constructor
    · intro s bb h
      simp only [envNoAssets] at h
      cases h
      exact ⟨by norm_num, by norm_num⟩
    · intro s
      exact ⟨by simp [envNoAssets], by simp [envNoAssets]⟩
  · intro p s f h
    simp only [envNoAssets] at h
    exact Option.noConfusion h

/-- Witness for the amended C10: with the default configuration
(line_spacing 4) and well-formed fonts, a full render ends at or above the
initial cursor. -/
theorem render_y_monotone_witness :
    V_PADDING ≤ ((renderRun envNoAssets {} infoOneItem 384).1).y :=
  (render_y_monotone envNoAssets {} infoOneItem 384 envNoAssets_wf
    (by decide)).2.2.2.2.2

/-- Counterexample to claim C10 as stated: the renderer accepts a
configuration with a negative `line_spacing` without validation, and the
fixed inter-block spacing additions (`self.y += ... + self.line_spacing`)
then move the cursor backward: a full render starting at y = V_PADDING = 0
ends at y = −233. -/
theorem render_y_decreases_with_negative_spacing :
    ((renderRun envNoAssets { line_spacing := -20 } infoOneItem 384).1).y = -233 ∧
    ((renderRun envNoAssets { line_spacing := -20 } infoOneItem 384).1).y < V_PADDING := by
  have h : ((renderRun envNoAssets { line_spacing := -20 } infoOneItem 384).1).y = -233 := by
    unfold renderRun
    simp only [titleFont_envNoAssets, bodyFont_envNoAssets, infoOneItem, itemsBlock,
      List.foldl_cons, List.foldl_nil, headerInfoBlock, footerInfoBlock,
      show ∀ q : ℚ, envNoAssets.fmtNum q = ['0'] from fun _ => rfl,
      show ∀ q : ℚ, envNoAssets.fmtMoney q = ['0'] from fun _ => rfl,
      show ∀ p, envNoAssets.openImage p = none from fun _ => rfl,
      show ∀ v, envNoAssets.defaultFont.textbbox v = ⟨0, 0, 0, 10⟩ from fun _ => rfl,
      drawImage, drawCenteredText, drawKeyValue, drawDashedLine, rLineSpacing,
      draw3Columns_eval_header, draw3Columns_eval_item]
    decide
  exact ⟨h, by rw [h]; decide⟩

/-! ### Wrapping idempotence (claim C6) -/

theorem splitOn_ne_nil (sep : Char) (s : PStr) : splitOn sep s ≠ [] := by
  induction s with
  | nil => simp [splitOn]
  | cons c rest ih =>
    unfold splitOn
    cases h : splitOn sep rest with
    | nil => simp
    | cons hd tl =>
      dsimp only
      split <;> simp

theorem not_mem_of_mem_splitOn (sep : Char) (s : PStr) :
    ∀ x ∈ splitOn sep s, sep ∉ x := by
  induction s with
  | nil =>
    intro x hx
    simp only [splitOn, List.mem_singleton] at hx
    subst hx
    simp
  | cons c rest ih =>
    intro x hx
    unfold splitOn at hx
    cases h : splitOn sep rest with
    | nil => exact absurd h (splitOn_ne_nil sep rest)
    | cons hd tl =>
      rw [h] at hx
      dsimp only at hx
      by_cases hc : c = sep
      · rw [if_pos hc] at hx
        rcases List.mem_cons.mp hx with rfl | hx'
        · simp
        · exact ih x (h ▸ hx')
      · rw [if_neg hc] at hx
        rcases List.mem_cons.mp hx with rfl | hx'
        · intro hmem
          rcases List.mem_cons.mp hmem with rfl | hmem'
          · exact hc rfl
          · exact ih hd (h ▸ List.mem_cons_self hd tl) hmem'
        · exact ih x (h ▸ List.mem_cons_of_mem hd hx')

theorem mem_of_mem_splitOn (sep : Char) (s : PStr) :
    ∀ x ∈ splitOn sep s, ∀ a ∈ x, a ∈ s := by
  induction s with
  | nil =>
    intro x hx a ha
    simp only [splitOn, List.mem_singleton] at hx
    subst hx
    simp at ha
  | cons c rest ih =>
    intro x hx a ha
    unfold splitOn at hx
    cases h : splitOn sep rest with
    | nil => exact absurd h (splitOn_ne_nil sep rest)
    | cons hd tl =>
      rw [h] at hx
      dsimp only at hx
      by_cases hc : c = sep
      · rw [if_pos hc] at hx
        rcases List.mem_cons.mp hx with rfl | hx'
        · simp at ha
        · exact List.mem_cons_of_mem c (ih x (h ▸ hx') a ha)
      · rw [if_neg hc] at hx
        rcases List.mem_cons.mp hx with rfl | hx'
        · rcases List.mem_cons.mp ha with rfl | ha'
          · exact List.mem_cons_self a rest
          · exact List.mem_cons_of_mem c
              (ih hd (h ▸ List.mem_cons_self hd tl) a ha')
        · exact List.mem_cons_of_mem c (ih x (h ▸ List.mem_cons_of_mem hd hx') a ha)

theorem splitOn_of_not_mem (sep : Char) (s : PStr) (hs : sep ∉ s) :
    splitOn sep s = [s] := by
  induction s with
  | nil => rfl
  | cons c rest ih =>
    have hcs : c ≠ sep := fun h => hs (h ▸ List.mem_cons_self c rest)
    have hrest : sep ∉ rest := fun h => hs (List.mem_cons_of_mem c h)
    unfold splitOn
    rw [ih hrest]
    dsimp only
    rw [if_neg hcs]

theorem mem_joinSp {a : Char} :
    ∀ {ws : List PStr}, a ∈ joinSp ws → a = ' ' ∨ ∃ w ∈ ws, a ∈ w := by
  intro ws
  induction ws with
  | nil =>
    intro h
    simp [joinSp] at h
  | cons w ws ih =>
    intro h
    cases ws with
    | nil =>
      right
      refine ⟨w, List.mem_cons_self w [], ?_⟩
      simpa [joinSp] using h
    | cons v vs =>
      simp only [joinSp] at h
      rcases List.mem_append.mp h with h1 | h2
      · right
        exact ⟨w, List.mem_cons_self w _, h1⟩
      · rcases List.mem_cons.mp h2 with rfl | h3
        · left; rfl
        · rcases ih h3 with h4 | ⟨u, hu, ha⟩
          · left; exact h4
          · right
            exact ⟨u, List.mem_cons_of_mem w hu, ha⟩

/-- A word of `wrap_text`'s greedy loop: contains neither a space nor a
newline. -/
def WordOK (w : PStr) : Prop := ' ' ∉ w ∧ '\n' ∉ w

/-- An output line of `wrap_text`: newline-free, and either it fits the
width or it is a single (possibly overlong) word. -/
def GoodLine (font : PFont) (maxW : ℚ) (l : PStr) : Prop :=
  '\n' ∉ l ∧ (font.getlength l ≤ maxW ∨ ' ' ∉ l)

/-- Invariant of the greedy loop's `current_line`: its words are clean and
either it is empty, a single word, or its joined form fits (the last word
appended passed the width test). -/
def CurOK (font : PFont) (maxW : ℚ) (cur : List PStr) : Prop :=
  (∀ w ∈ cur, WordOK w) ∧
  (cur = [] ∨ cur.length = 1 ∨ font.getlength (joinSp cur) ≤ maxW)

theorem joinSp_noNL {cur : List PStr} (h : ∀ w ∈ cur, WordOK w) :
    '\n' ∉ joinSp cur := by
  intro hmem
  rcases mem_joinSp hmem with h1 | ⟨w, hw, ha⟩
  · simp at h1
  · exact (h w hw).2 ha

theorem joinSp_good {font : PFont} {maxW : ℚ} {cur : List PStr}
    (hc : CurOK font maxW cur) (hne : cur ≠ []) :
    GoodLine font maxW (joinSp cur) := by
  refine ⟨joinSp_noNL hc.1, ?_⟩
  rcases hc.2 with h | h | h
  · exact absurd h hne
  · obtain ⟨w, rfl⟩ := List.length_eq_one.mp h
    right
    show ' ' ∉ joinSp [w]
    simpa [joinSp] using (hc.1 w (List.mem_cons_self w [])).1
  · exact Or.inl h

theorem greedyStep_invariant (font : PFont) (maxW : ℚ) (st : List PStr × List PStr)
    (word : PStr) (hl : ∀ l ∈ st.1, GoodLine font maxW l)
    (hc : CurOK font maxW st.2) (hw : WordOK word) :
    (∀ l ∈ (greedyStep font maxW st word).1, GoodLine font maxW l) ∧
    CurOK font maxW (greedyStep font maxW st word).2 := by
  obtain ⟨lines, cur⟩ := st
  unfold greedyStep
  dsimp only
  split
  · -- the word fits the accumulated line: keep accumulating
    next hfit =>
    refine ⟨hl, ⟨?_, Or.inr (Or.inr hfit)⟩⟩
    intro w hmem
    rcases List.mem_append.mp hmem with h1 | h2
    · exact hc.1 w h1
    · rwa [List.mem_singleton.mp h2]
  · split
    · -- flush the accumulated line, start over with the word
      next hfit hcur =>
      constructor
      · intro l hmem
        rcases List.mem_append.mp hmem with h1 | h2
        · exact hl l h1
        · rw [List.mem_singleton.mp h2]
          exact joinSp_good hc hcur
      · refine ⟨?_, Or.inr (Or.inl rfl)⟩
        intro w hmem
        rwa [List.mem_singleton.mp hmem]
    · -- an overlong word with nothing accumulated: emit it alone
      next hfit hcur =>
      rw [not_not] at hcur
      constructor
      · intro l hmem
        rcases List.mem_append.mp hmem with h1 | h2
        · exact hl l h1
        · rw [List.mem_singleton.mp h2]
          exact ⟨hw.2, Or.inr hw.1⟩
      · exact ⟨by simp, Or.inl rfl⟩

theorem greedy_foldl_invariant (font : PFont) (maxW : ℚ) :
    ∀ (words : List PStr), (∀ w ∈ words, WordOK w) →
    ∀ (st : List PStr × List PStr), (∀ l ∈ st.1, GoodLine font maxW l) →
      CurOK font maxW st.2 →
      (∀ l ∈ (words.foldl (greedyStep font maxW) st).1, GoodLine font maxW l) ∧
      CurOK font maxW (words.foldl (greedyStep font maxW) st).2 := by
  intro words
  induction words with
  | nil => intro _ st hl hc; exact ⟨hl, hc⟩
  | cons w ws ih =>
    intro hws st hl hc
    rw [List.foldl_cons]
    have hstep := greedyStep_invariant font maxW st w hl hc
      (hws w (List.mem_cons_self w ws))
    exact ih (fun u hu => hws u (List.mem_cons_of_mem w hu)) _ hstep.1 hstep.2

theorem wrapParagraph_good (font : PFont) (maxW : ℚ) (p : PStr) (hp : '\n' ∉ p) :
    ∀ l ∈ wrapParagraph font maxW p, GoodLine font maxW l := by
  unfold wrapParagraph
  split
  · next hfit =>
    intro l hl
    rw [List.mem_singleton.mp hl]
    exact ⟨hp, Or.inl hfit⟩
  · next hfit =>
    have hws : ∀ w ∈ splitOn ' ' p, WordOK w := fun w hw =>
      ⟨not_mem_of_mem_splitOn ' ' p w hw,
       fun hnl => hp (mem_of_mem_splitOn ' ' p w hw '\n' hnl)⟩
    have hinv := greedy_foldl_invariant font maxW (splitOn ' ' p) hws ([], [])
      (by simp) ⟨by simp, Or.inl rfl⟩
    dsimp only
    split
    · next hcur =>
      intro l hl
      rcases List.mem_append.mp hl with h1 | h2
      · exact hinv.1 l h1
      · rw [List.mem_singleton.mp h2]
        exact joinSp_good hinv.2 hcur
    · exact hinv.1

theorem wrapText_good (font : PFont) (maxW : ℚ) (text : PStr) :
    ∀ l ∈ wrapText font maxW text, GoodLine font maxW l := by
  unfold wrapText
  split
  · simp
  · intro l hl
    rw [List.mem_flatten] at hl
    obtain ⟨lines, hlines, hmem⟩ := hl
    rw [List.mem_map] at hlines
    obtain ⟨para, hpara, heq⟩ := hlines
    exact wrapParagraph_good font maxW para
      (not_mem_of_mem_splitOn '\n' text para hpara) l (heq ▸ hmem)

/-- Claim C6 amended: wrapping is idempotent on every *non-empty* output
line: for every text, font and max width, each non-empty line of
`wrap_text`'s output re-wraps to exactly itself.  (An empty output line —
produced by consecutive, leading or trailing newlines — re-wraps to `[]`
instead, because `wrap_text` returns `[]` for empty input.) -/
theorem wrapText_idem (font : PFont) (maxW : ℚ) (text l : PStr)
    (hmem : l ∈ wrapText font maxW text) (hne : l ≠ []) :
    wrapText font maxW l = [l] := by
  obtain ⟨hnl, hgood⟩ := wrapText_good font maxW text l hmem
  unfold wrapText
  rw [if_neg hne, splitOn_of_not_mem '\n' l hnl]
  by_cases hfit : font.getlength l ≤ maxW
  · simp [wrapParagraph_fit font maxW l hfit]
  · have hnospace : ' ' ∉ l := hgood.resolve_left hfit
    simp only [List.map_cons, List.map_nil]
    rw [show wrapParagraph font maxW l = [l] from ?_]
    · simp
    · unfold wrapParagraph
      rw [if_neg hfit, splitOn_of_not_mem ' ' l hnospace]
      simp only [List.foldl_cons, List.foldl_nil]
      unfold greedyStep
      dsimp only
      rw [show joinSp ([] ++ [l]) = l from by simp [joinSp]]
      rw [if_neg hfit]
      simp

/-- Witness for the amended C6: the line "ab" wrapped at width 5 is its own
wrap output, and feeding it back reproduces it. -/
theorem wrapText_idem_witness :
    "ab".toList ∈ wrapText envNoAssets.defaultFont 5 "ab".toList ∧
    wrapText envNoAssets.defaultFont 5 "ab".toList = ["ab".toList] :=
  have hm : "ab".toList ∈ wrapText envNoAssets.defaultFont 5 "ab".toList := by
    rw [wrapText_single _ _ _ (by decide) (by decide) (by decide)]
    exact List.mem_singleton.mpr rfl
  ⟨hm, wrapText_idem envNoAssets.defaultFont 5 "ab".toList "ab".toList hm (by decide)⟩

/-- Counterexample to claim C6 as stated: wrapping the text "\n" yields the
two empty lines ["", ""], and re-wrapping the output line "" yields `[]`,
not `[""]` — `wrap_text` is not idempotent on empty output lines. -/
theorem wrapText_not_idempotent_on_empty :
    ([] : PStr) ∈ wrapText envNoAssets.defaultFont 5 ['\n'] ∧
    wrapText envNoAssets.defaultFont 5 ([] : PStr) = [] ∧
    wrapText envNoAssets.defaultFont 5 ([] : PStr) ≠ [([] : PStr)] := by
  refine ⟨by decide, rfl, by decide⟩

/-! ### Success characterization of `validate_payload` (claim C4) -/

theorem isOkE_ok {α : Type} (a : α) : isOkE (Except.ok a : Except PStr α) = true := rfl

theorem isOkE_error {α : Type} (e : PStr) : isOkE (Except.error e : Except PStr α) = false := rfl

theorem mapME_cons {α β : Type} (f : α → Except PStr β) (x : α) (xs : List α) :
    mapME f (x :: xs) =
      match f x with
      | .error e => .error e
      | .ok b =>
        match mapME f xs with
        | .error e => .error e
        | .ok bs => .ok (b :: bs) := rfl

theorem isOkE_mapME {α β : Type} (f : α → Except PStr β) (xs : List α) :
    isOkE (mapME f xs) = xs.all (fun x => isOkE (f x)) := by
  induction xs with
  | nil => rfl
  | cons x xs ih =>
    rw [List.all_cons, ← ih, mapME_cons]
    cases hf : f x with
    | error e => simp [isOkE]
    | ok b =>
      cases hm : mapME f xs with
      | error e => simp [isOkE]
      | ok bs => simp [isOkE]

theorem isOkE_sanitizeItem (pyStr : JValue → PStr) (it : JValue) :
    isOkE (sanitizeItem pyStr it) = itemOkB it := by
  unfold sanitizeItem itemOkB
  cases it <;> try rfl
  next kvs =>
    dsimp only
    cases h1 : jgetOpt kvs "name".toList with
    | none => rfl
    | some nm =>
      cases h2 : jgetOpt kvs "amount".toList with
      | none => rfl
      | some am =>
        cases h3 : jgetOpt kvs "quantity".toList with
        | none => rfl
        | some qt =>
          dsimp only
          cases h4 : pyFloat? am with
          | none => cases h5 : pyFloat? qt <;> rfl
          | some a => cases h5 : pyFloat? qt <;> rfl

theorem isOkE_validateSection (pyStr : JValue → PStr) (kvs : List (PStr × JValue))
    (key errMsg : PStr) :
    isOkE (validateSection pyStr kvs key errMsg) = sectionOkB kvs key := by
  unfold validateSection sectionOkB
  cases h : jgetOpt kvs key with
  | none => rfl
  | some v => cases v <;> rfl

theorem isOkE_sanitizeTxKey (t : List (PStr × JValue)) (k : PStr) :
    isOkE (sanitizeTxKey t k) = txFieldOkB t k := by
  unfold sanitizeTxKey txFieldOkB
  cases h : jgetOpt t k with
  | none => rfl
  | some v =>
    dsimp only
    cases h2 : pyFloat? v <;> rfl

theorem isOkE_validateTx (kvs : List (PStr × JValue)) :
    isOkE (validateTx kvs) = txOkB kvs := by
  unfold validateTx txOkB
  cases h : jgetOpt kvs "transaction_info".toList with
  | none => rfl
  | some v =>
    cases v <;> try rfl
    next t =>
      dsimp only
      have hAll : isOkE (mapME (sanitizeTxKey t) txKeys) = txKeys.all (txFieldOkB t) := by
        rw [isOkE_mapME]
        simp [isOkE_sanitizeTxKey]
      cases hm : mapME (sanitizeTxKey t) txKeys with
      | error e =>
        rw [hm] at hAll
        exact hAll
      | ok pairs =>
        rw [hm] at hAll
        exact hAll

/-- Claim C4 amended: `validate_payload` fails with a `ValueError` (or a
propagated coercion error) exactly when the payload is not an object,
`items` is missing, not a list, or empty, some item is not an object or
lacks a non-null `name`/`amount`/`quantity` or its `amount`/`quantity`
cannot be coerced to a number, `header_info`/`footer_info`/
`transaction_info` is present non-null but not an object, or some
`transaction_info` field is present non-null but not numerically
coercible; for every payload with none of these defects it succeeds. -/
theorem validatePayload_isOk (pyStr : JValue → PStr) (p : JValue) :
    isOkE (validatePayload pyStr p) = payloadOkB p := by
  unfold validatePayload payloadOkB
  cases p <;> try rfl
  next kvs =>
    dsimp only
    cases hit : jget kvs "items".toList with
    | none => rfl
    | some v =>
      cases v <;> try rfl
      next its =>
        dsimp only
        by_cases hemp : its.isEmpty
        · rw [if_pos hemp]
          simp [isOkE, hemp]
        · rw [if_neg hemp]
          rw [Bool.not_eq_true] at hemp
          simp only [hemp, Bool.not_false, Bool.true_and]
          have hAll : isOkE (mapME (sanitizeItem pyStr) its) = its.all itemOkB := by
            rw [isOkE_mapME]
            simp [isOkE_sanitizeItem]
          cases hm : mapME (sanitizeItem pyStr) its with
          | error e =>
            rw [hm] at hAll
            rw [← hAll]
            rfl
          | ok sits =>
            rw [hm] at hAll
            rw [← hAll, isOkE_ok, Bool.true_and]
            dsimp only
            cases hh : validateSection pyStr kvs "header_info".toList
                "Field header_info must be an object".toList with
            | error e =>
              rw [← isOkE_validateSection pyStr kvs "header_info".toList
                "Field header_info must be an object".toList, hh]
              rfl
            | ok hd =>
              rw [← isOkE_validateSection pyStr kvs "header_info".toList
                "Field header_info must be an object".toList, hh, isOkE_ok, Bool.true_and]
              dsimp only
              cases hf : validateSection pyStr kvs "footer_info".toList
                  "Field footer_info must be an object".toList with
              | error e =>
                rw [← isOkE_validateSection pyStr kvs "footer_info".toList
                  "Field footer_info must be an object".toList, hf]
                rfl
              | ok ft =>
                rw [← isOkE_validateSection pyStr kvs "footer_info".toList
                  "Field footer_info must be an object".toList, hf, isOkE_ok, Bool.true_and]
                dsimp only
                cases ht : validateTx kvs with
                | error e => rw [← isOkE_validateTx kvs, ht]
                | ok tx =>
                  rw [← isOkE_validateTx kvs, ht]
                  rfl

/-- A stand-in for the stdlib `str()` conversion, used only at concrete
inputs where its behavior is irrelevant to success or failure. -/
def pyStr0 : JValue → PStr
  | .str s => s
  | _ => []

/-- A payload with a perfectly well-formed non-empty `items` list but a
non-object `header_info`. -/
def exC4 : JValue :=
  .obj [("items".toList, .arr [.obj [("name".toList, .str ['a']),
          ("amount".toList, .num 1), ("quantity".toList, .num 2)]]),
        ("header_info".toList, .num 5)]

/-- Counterexample to claim C4 as stated: `exC4` satisfies none of the
claim's enumerated failure conditions — its `items` list is present,
non-empty, and every item carries coercible `name`/`amount`/`quantity` —
yet `validate_payload` rejects it, because `header_info` is a number
rather than an object.  The enumeration is therefore not exhaustive. -/
theorem validatePayload_rejects_beyond_enumerated :
    claimC4FailConds exC4 = false ∧ isOkE (validatePayload pyStr0 exC4) = false := by
  exact ⟨by decide, by decide⟩

end UsbPrinter
